import Mathlib

/-!
Shallow embedding of the two worker-pool demo scripts of this repository:

* `src/Python/Threading/sample.py` — `slow_square` and `run_in_threads`,
  built on `ThreadPoolExecutor`, `as_completed` and
  `Future.result(timeout=time_limit)`;
* `src/Python/MultiProcessing/sample.py` — `slow_square` and
  `run_in_processes`, built on `ProcessPoolExecutor`, `as_completed` and
  `Future.result()`.

Python exceptions are modelled with `Except String`; a Python value that may
be `None` is modelled as `Option β` with `none` standing for `None`.  The
nondeterministic order in which `as_completed` yields the submitted futures
is an explicit parameter `order : List Nat` (the original indices in
completion order); since `as_completed` yields every future exactly once,
`order` is a permutation of `List.range values.length`.  Each run also
produces a trace of observable events (pool lifecycle, task submission,
per-task prints, result-slot writes, progress-bar updates) so that claims
about reporting, cleanup and dead code can be stated.
-/

namespace PySnippets

/-- Observable events of one call to `run_in_threads` / `run_in_processes`. -/
inductive Event where
  | poolCreate
  | submit (idx : Nat)
  | invoke (idx : Nat)
  | printTaskTimeout (idx : Nat)
  | printTaskError (idx : Nat)
  | write (idx : Nat)
  | pbarUpdate
  | pbarClose
  | poolShutdown
deriving DecidableEq

/-- Model of `time.sleep(duration)`: raises `ValueError` when the requested
duration is negative, otherwise returns normally. -/
def timeSleep (duration : Int) : Except String Unit :=
  if duration < 0 then
    Except.error "ValueError: sleep length must be non-negative"
  else
    Except.ok ()

/-- Outcome of the call `future.result(timeout=time_limit)` from
`concurrent.futures`: a future that has already finished immediately yields
its outcome — the value the worker returned or the exception it raised —
while a future that is still running raises `TimeoutError` once the timeout
expires. -/
inductive ResultCall (γ : Type) where
  | returned (v : γ)
  | raised (e : String)
  | timedOut
deriving DecidableEq

/-- Model of `concurrent.futures.Future.result(timeout=...)`: `done` says
whether the future has already finished when `result` is called, and
`outcome` is the worker's outcome.  The timeout only matters for a future
that is not yet done. -/
def futureResult (done : Bool) (outcome : Except String (Option β))
    (time_limit : Int) : ResultCall (Option β) :=
  if done then
    match outcome with
    | Except.ok v => ResultCall.returned v
    | Except.error e => ResultCall.raised e
  else
    ResultCall.timedOut

/-- The outcome held by the future that `future_to_index` maps to original
index `idx`: the worker applied the submitted function to `values[idx]`
(source: `ex.submit(slow_square, val) for idx, val in enumerate(values)`).
Indices yielded by `as_completed(future_to_index)` are always in range, so
the `IndexError` arm is never hit for a valid completion order. -/
def outcomeAt (f : α → Except String (Option β)) (values : List α)
    (idx : Nat) : Except String (Option β) :=
  match values[idx]? with
  | some v => f v
  | none => Except.error "IndexError"

/-- Events emitted while setting up a run: the pool is created, then one
task per input index is submitted to it and eventually runs. -/
def submitTrace (n : Nat) : List Event :=
  (List.range n).flatMap (fun i => [Event.submit i, Event.invoke i])

namespace Threading

/-- `slow_square` from `src/Python/Threading/sample.py`:
`sleep_time = 6 - x; time.sleep(sleep_time); return x * x`. -/
def slow_square (x : Int) : Except String Int :=
  let sleep_time := 6 - x
  match timeSleep sleep_time with
  | Except.error e => Except.error e
  | Except.ok _ => Except.ok (x * x)

/-- State of the `for future in as_completed(future_to_index)` loop in
`run_in_threads`: the preallocated `results` list, the Python local variable
`result` (`none` while still unbound — it is only assigned inside the `try`
and inside the `except Exception` handler, not in the `except TimeoutError`
handler), and the events emitted so far. -/
structure ThreadLoopState (β : Type) where
  results : List (Option β)
  resultLocal : Option (Option β)
  events : List Event

/-- The `for future in as_completed(future_to_index)` loop of
`run_in_threads`, iterating over completion order.  Per iteration (source
order): `idx = future_to_index[future]`; `try: result =
future.result(timeout=time_limit)`; `except TimeoutError: print(...)` (note:
`result` is NOT assigned there); `except Exception as e: print(...); result =
None`; then `results[idx] = result` and `pbar.update(1)`.  Using `result`
while it is still unbound raises `UnboundLocalError`, which escapes the loop;
the first component reports such an escaping exception. -/
def threadLoop (f : α → Except String (Option β)) (values : List α)
    (time_limit : Int) :
    List Nat → ThreadLoopState β → Option String × ThreadLoopState β
  | [], st => (none, st)
  | idx :: rest, st =>
    -- `as_completed` yields a future only once it has finished, so the
    -- future is done by the time `future.result(timeout=time_limit)` runs.
    match futureResult true (outcomeAt f values idx) time_limit with
    | ResultCall.returned v =>
      threadLoop f values time_limit rest
        { results := st.results.set idx v
          resultLocal := some v
          events := st.events ++ [Event.write idx, Event.pbarUpdate] }
    | ResultCall.raised _ =>
      threadLoop f values time_limit rest
        { results := st.results.set idx none
          resultLocal := some none
          events := st.events ++
            [Event.printTaskError idx, Event.write idx, Event.pbarUpdate] }
    | ResultCall.timedOut =>
      match st.resultLocal with
      | some v =>
        threadLoop f values time_limit rest
          { results := st.results.set idx v
            resultLocal := some v
            events := st.events ++
              [Event.printTaskTimeout idx, Event.write idx, Event.pbarUpdate] }
      | none =>
        (some "UnboundLocalError",
          { st with events := st.events ++ [Event.printTaskTimeout idx] })

/-- `run_in_threads` from `src/Python/Threading/sample.py`, with the
submitted transformation abstracted as `f` (the file fixes
`f := slow_square`).  Steps, in source order: preallocate
`results = [None] * len(values)`; enter `with ThreadPoolExecutor(...)`
(pool creation); submit one task per input, recording
`future -> original index`; create the progress bar; run the
`as_completed` loop under `try`; `finally: pbar.close()`; leave the `with`
block (pool shutdown); return `pd.DataFrame({"input": values, "output":
results})`, modelled as the index-aligned list of (input, output) rows.
An exception escaping the loop still passes through the `finally` and the
`with` exit before propagating out of the call. -/
def run_in_threads_with (f : α → Except String (Option β)) (values : List α)
    (time_limit : Int) (order : List Nat) :
    Except String (List (α × Option β)) × List Event :=
  let init : ThreadLoopState β :=
    { results := List.replicate values.length none
      resultLocal := none
      events := Event.poolCreate :: submitTrace values.length }
  let out := threadLoop f values time_limit order init
  let trace := out.2.events ++ [Event.pbarClose, Event.poolShutdown]
  match out.1 with
  | some e => (Except.error e, trace)
  | none => (Except.ok (values.zip out.2.results), trace)

/-- `run_in_threads` exactly as in the source file: the submitted function is
`slow_square`, whose returned int is a non-`None` Python value. -/
def run_in_threads (values : List Int) (time_limit : Int)
    (order : List Nat) :
    Except String (List (Int × Option Int)) × List Event :=
  run_in_threads_with (fun x => (slow_square x).map some) values time_limit
    order

end Threading

namespace MultiProcessing

/-- `slow_square` from `src/Python/MultiProcessing/sample.py`:
`sleep_time = 6 - x; time.sleep(sleep_time); return x * x`. -/
def slow_square (x : Int) : Except String Int :=
  let sleep_time := 6 - x
  match timeSleep sleep_time with
  | Except.error e => Except.error e
  | Except.ok _ => Except.ok (x * x)

/-- State of the `for future in as_completed(future_to_index)` loop in
`run_in_processes`: the preallocated `results` list and the events emitted
so far (here the local `result` is assigned on every path through the
`try`/`except`, so it needs no unbound state). -/
structure ProcLoopState (β : Type) where
  results : List (Option β)
  events : List Event

/-- The `for future in as_completed(future_to_index)` loop of
`run_in_processes`.  Per iteration: `idx = future_to_index[future]`;
`try: result = future.result()` (no timeout; the future is already
finished, so this immediately yields the worker's outcome);
`except Exception as e: print(...); result = None`; then
`results[idx] = result` and `pbar.update(1)`. -/
def procLoop (f : α → Except String (Option β)) (values : List α) :
    List Nat → ProcLoopState β → ProcLoopState β
  | [], st => st
  | idx :: rest, st =>
    match outcomeAt f values idx with
    | Except.ok v =>
      procLoop f values rest
        { results := st.results.set idx v
          events := st.events ++ [Event.write idx, Event.pbarUpdate] }
    | Except.error _ =>
      procLoop f values rest
        { results := st.results.set idx none
          events := st.events ++
            [Event.printTaskError idx, Event.write idx, Event.pbarUpdate] }

/-- `run_in_processes` from `src/Python/MultiProcessing/sample.py`, with the
submitted transformation abstracted as `f` (the file fixes
`f := slow_square`).  Steps mirror the threading variant: preallocate
`results = [None] * len(values)`; enter `with ProcessPoolExecutor(...)`;
submit one task per input; create the progress bar; run the `as_completed`
loop under `try`; `finally: pbar.close()`; leave the `with` block; return
the index-aligned (input, output) rows.  The `Except` in the return type
mirrors the threading variant; this loop has no path that raises, so the
result is always `Except.ok`. -/
def run_in_processes_with (f : α → Except String (Option β))
    (values : List α) (order : List Nat) :
    Except String (List (α × Option β)) × List Event :=
  let init : ProcLoopState β :=
    { results := List.replicate values.length none
      events := Event.poolCreate :: submitTrace values.length }
  let st := procLoop f values order init
  (Except.ok (values.zip st.results),
    st.events ++ [Event.pbarClose, Event.poolShutdown])

/-- `run_in_processes` exactly as in the source file: the submitted function
is `slow_square`. -/
def run_in_processes (values : List Int) (order : List Nat) :
    Except String (List (Int × Option Int)) × List Event :=
  run_in_processes_with (fun x => (slow_square x).map some) values order

end MultiProcessing

/-- The output slot produced from a worker outcome: the returned value on
success, the `None` marker when the worker raised. -/
def pySlot (o : Except String (Option β)) : Option β :=
  match o with
  | Except.ok v => v
  | Except.error _ => none

/-- Index-aligned table of (input, output) rows that both runners are proved
to return: input `x` is paired with `pySlot (f x)`. -/
def tableSpec (f : α → Except String (Option β)) (values : List α) :
    List (α × Option β) :=
  values.map (fun x => (x, pySlot (f x)))

/-- The value written into slot `idx` by the completion-loop iteration that
handles original index `idx`. -/
def slotVal (f : α → Except String (Option β)) (values : List α)
    (idx : Nat) : Option β :=
  pySlot (outcomeAt f values idx)

/-- The result array obtained by performing, for each index of `order` in
turn, the write `results[idx] = slot value of idx`. -/
def applyWrites (f : α → Except String (Option β)) (values : List α)
    (order : List Nat) (rs : List (Option β)) : List (Option β) :=
  order.foldl (fun r idx => r.set idx (slotVal f values idx)) rs

/-- Events emitted by the loop iteration handling original index `idx`. -/
def stepTrace (f : α → Except String (Option β)) (values : List α)
    (idx : Nat) : List Event :=
  match outcomeAt f values idx with
  | Except.ok _ => [Event.write idx, Event.pbarUpdate]
  | Except.error _ =>
    [Event.printTaskError idx, Event.write idx, Event.pbarUpdate]

/-- Events emitted by the whole completion loop, in completion order. -/
def loopTrace (f : α → Except String (Option β)) (values : List α)
    (order : List Nat) : List Event :=
  order.flatMap (stepTrace f values)
end PySnippets

namespace PySnippets

/-! ### Characterization of the completion loops -/

lemma futureResult_true (o : Except String (Option β)) (tl : Int) :
    futureResult true o tl =
      match o with
      | Except.ok v => ResultCall.returned v
      | Except.error e => ResultCall.raised e := by
  simp [futureResult]

lemma applyWrites_nil (f : α → Except String (Option β)) (values : List α)
    (rs : List (Option β)) : applyWrites f values [] rs = rs := rfl

lemma applyWrites_cons (f : α → Except String (Option β)) (values : List α)
    (idx : Nat) (order : List Nat) (rs : List (Option β)) :
    applyWrites f values (idx :: order) rs =
      applyWrites f values order (rs.set idx (slotVal f values idx)) := rfl

lemma loopTrace_nil (f : α → Except String (Option β)) (values : List α) :
    loopTrace f values [] = [] := rfl

lemma loopTrace_cons (f : α → Except String (Option β)) (values : List α)
    (idx : Nat) (order : List Nat) :
    loopTrace f values (idx :: order) =
      stepTrace f values idx ++ loopTrace f values order := by
  simp [loopTrace]

/-- The threading completion loop never raises, writes `slotVal` at each
index of `order` in turn, and emits exactly `loopTrace` after the events
already present. -/
lemma threadLoop_eq (f : α → Except String (Option β)) (values : List α)
    (time_limit : Int) (order : List Nat) (st : Threading.ThreadLoopState β) :
    (Threading.threadLoop f values time_limit order st).1 = none ∧
      (Threading.threadLoop f values time_limit order st).2.results =
        applyWrites f values order st.results ∧
      (Threading.threadLoop f values time_limit order st).2.events =
        st.events ++ loopTrace f values order := by
  induction order generalizing st with
  | nil =>
    simp [Threading.threadLoop, applyWrites_nil, loopTrace_nil]
  | cons idx rest ih =>
    rw [applyWrites_cons, loopTrace_cons]
    cases h : outcomeAt f values idx with
    | ok v =>
      have hs : slotVal f values idx = v := by simp [slotVal, pySlot, h]
      have ht : stepTrace f values idx = [Event.write idx, Event.pbarUpdate] := by
        simp [stepTrace, h]
      simp only [Threading.threadLoop, futureResult, h, if_true]
      rw [hs, ht]
      refine ⟨(ih _).1, ?_, ?_⟩
      · rw [(ih _).2.1]
      · rw [(ih _).2.2]
        simp
    | error e =>
      have hs : slotVal f values idx = none := by simp [slotVal, pySlot, h]
      have ht : stepTrace f values idx =
          [Event.printTaskError idx, Event.write idx, Event.pbarUpdate] := by
        simp [stepTrace, h]
      simp only [Threading.threadLoop, futureResult, h, if_true]
      rw [hs, ht]
      refine ⟨(ih _).1, ?_, ?_⟩
      · rw [(ih _).2.1]
      · rw [(ih _).2.2]
        simp

/-- The multiprocessing completion loop behaves identically: it writes
`slotVal` at each index of `order` and emits exactly `loopTrace`. -/
lemma procLoop_eq (f : α → Except String (Option β)) (values : List α)
    (order : List Nat) (st : MultiProcessing.ProcLoopState β) :
    (MultiProcessing.procLoop f values order st).results =
        applyWrites f values order st.results ∧
      (MultiProcessing.procLoop f values order st).events =
        st.events ++ loopTrace f values order := by
  induction order generalizing st with
  | nil =>
    simp [MultiProcessing.procLoop, applyWrites_nil, loopTrace_nil]
  | cons idx rest ih =>
    rw [applyWrites_cons, loopTrace_cons]
    cases h : outcomeAt f values idx with
    | ok v =>
      have hs : slotVal f values idx = v := by simp [slotVal, pySlot, h]
      have ht : stepTrace f values idx = [Event.write idx, Event.pbarUpdate] := by
        simp [stepTrace, h]
      simp only [MultiProcessing.procLoop, h]
      rw [hs, ht]
      refine ⟨?_, ?_⟩
      · rw [(ih _).1]
      · rw [(ih _).2]
        simp
    | error e =>
      have hs : slotVal f values idx = none := by simp [slotVal, pySlot, h]
      have ht : stepTrace f values idx =
          [Event.printTaskError idx, Event.write idx, Event.pbarUpdate] := by
        simp [stepTrace, h]
      simp only [MultiProcessing.procLoop, h]
      rw [hs, ht]
      refine ⟨?_, ?_⟩
      · rw [(ih _).1]
      · rw [(ih _).2]
        simp

/-- Closed form of `run_in_threads_with` for an arbitrary completion order:
the call returns normally, the rows are the inputs zipped with the written
slots, and the trace is fully determined.  Nothing on the right-hand side
depends on `time_limit`. -/
lemma run_in_threads_with_eq (f : α → Except String (Option β))
    (values : List α) (time_limit : Int) (order : List Nat) :
    Threading.run_in_threads_with f values time_limit order =
      (Except.ok (values.zip (applyWrites f values order
          (List.replicate values.length none))),
        Event.poolCreate :: submitTrace values.length ++
          loopTrace f values order ++ [Event.pbarClose, Event.poolShutdown]) := by
  have h := threadLoop_eq f values time_limit order
    { results := List.replicate values.length none
      resultLocal := none
      events := Event.poolCreate :: submitTrace values.length }
  simp only [Threading.run_in_threads_with]
  rw [h.1]
  rw [h.2.1, h.2.2]

/-- Closed form of `run_in_processes_with` for an arbitrary completion
order. -/
lemma run_in_processes_with_eq (f : α → Except String (Option β))
    (values : List α) (order : List Nat) :
    MultiProcessing.run_in_processes_with f values order =
      (Except.ok (values.zip (applyWrites f values order
          (List.replicate values.length none))),
        Event.poolCreate :: submitTrace values.length ++
          loopTrace f values order ++ [Event.pbarClose, Event.poolShutdown]) := by
  have h := procLoop_eq f values order
    { results := List.replicate values.length none
      events := Event.poolCreate :: submitTrace values.length }
  simp only [MultiProcessing.run_in_processes_with]
  rw [h.1, h.2]


/-! ### The written slots under a permutation completion order -/

lemma length_applyWrites (f : α → Except String (Option β)) (values : List α)
    (order : List Nat) (rs : List (Option β)) :
    (applyWrites f values order rs).length = rs.length := by
  induction order generalizing rs with
  | nil => rfl
  | cons idx rest ih =>
    rw [applyWrites_cons, ih]
    simp

lemma applyWrites_getElem? (f : α → Except String (Option β))
    (values : List α) (order : List Nat) (rs : List (Option β)) (i : Nat)
    (hi : i < rs.length) :
    (applyWrites f values order rs)[i]? =
      if i ∈ order then some (slotVal f values i) else rs[i]? := by
  induction order generalizing rs with
  | nil => simp [applyWrites_nil]
  | cons idx rest ih =>
    rw [applyWrites_cons,
      ih (rs.set idx (slotVal f values idx)) (by simpa using hi)]
    by_cases hmem : i ∈ rest
    · simp [hmem]
    · by_cases hij : i = idx
      · subst hij
        simp [hmem, List.getElem?_set_self hi]
      · have hset : (rs.set idx (slotVal f values idx))[i]? = rs[i]? :=
          List.getElem?_set_ne (Ne.symm hij)
        simp [hmem, hij, hset]

lemma applyWrites_perm (f : α → Except String (Option β)) (values : List α)
    (order : List Nat)
    (hperm : order.Perm (List.range values.length)) :
    applyWrites f values order (List.replicate values.length none) =
      values.map (fun x => pySlot (f x)) := by
  apply List.ext_getElem?
  intro i
  rw [List.getElem?_map]
  by_cases hi : i < values.length
  · rw [applyWrites_getElem? f values order _ i (by simpa using hi)]
    have hmem : i ∈ order := hperm.mem_iff.2 (List.mem_range.2 hi)
    rw [if_pos hmem, List.getElem?_eq_getElem hi]
    simp [slotVal, outcomeAt, List.getElem?_eq_getElem hi]
  · have h1 :
        (applyWrites f values order
          (List.replicate values.length none)).length ≤ i := by
      rw [length_applyWrites]
      simpa using Nat.le_of_not_lt hi
    rw [List.getElem?_eq_none h1,
      List.getElem?_eq_none (Nat.le_of_not_lt hi)]
    rfl

lemma zip_map_pySlot (f : α → Except String (Option β)) (values : List α) :
    values.zip (values.map (fun x => pySlot (f x))) = tableSpec f values := by
  induction values with
  | nil => rfl
  | cons v vs ih =>
    simp only [tableSpec, List.map_cons, List.zip_cons_cons] at ih ⊢
    rw [ih]

lemma length_tableSpec (f : α → Except String (Option β)) (values : List α) :
    (tableSpec f values).length = values.length := by
  simp [tableSpec]

/-- Full closed form of `run_in_threads_with` when the completion order is a
permutation of the original indices, as `as_completed` guarantees. -/
lemma run_in_threads_with_spec (f : α → Except String (Option β))
    (values : List α) (time_limit : Int) (order : List Nat)
    (hperm : order.Perm (List.range values.length)) :
    Threading.run_in_threads_with f values time_limit order =
      (Except.ok (tableSpec f values),
        Event.poolCreate :: submitTrace values.length ++
          loopTrace f values order ++ [Event.pbarClose, Event.poolShutdown]) := by
  rw [run_in_threads_with_eq, applyWrites_perm f values order hperm,
    zip_map_pySlot]

/-- Full closed form of `run_in_processes_with` when the completion order is
a permutation of the original indices. -/
lemma run_in_processes_with_spec (f : α → Except String (Option β))
    (values : List α) (order : List Nat)
    (hperm : order.Perm (List.range values.length)) :
    MultiProcessing.run_in_processes_with f values order =
      (Except.ok (tableSpec f values),
        Event.poolCreate :: submitTrace values.length ++
          loopTrace f values order ++ [Event.pbarClose, Event.poolShutdown]) := by
  rw [run_in_processes_with_eq, applyWrites_perm f values order hperm,
    zip_map_pySlot]

/-! ### Trace lemmas -/

lemma write_not_mem_submitTrace (n i : Nat) :
    Event.write i ∉ submitTrace n := by
  simp [submitTrace]

lemma printTaskTimeout_not_mem_submitTrace (n i : Nat) :
    Event.printTaskTimeout i ∉ submitTrace n := by
  simp [submitTrace]

lemma printTaskTimeout_not_mem_stepTrace
    (f : α → Except String (Option β)) (values : List α) (idx i : Nat) :
    Event.printTaskTimeout i ∉ stepTrace f values idx := by
  cases h : outcomeAt f values idx <;> simp [stepTrace, h]

lemma printTaskTimeout_not_mem_loopTrace
    (f : α → Except String (Option β)) (values : List α)
    (order : List Nat) (i : Nat) :
    Event.printTaskTimeout i ∉ loopTrace f values order := by
  induction order with
  | nil => simp [loopTrace_nil]
  | cons idx rest ih =>
    rw [loopTrace_cons]
    intro hmem
    rcases List.mem_append.1 hmem with hmem | hmem
    · exact printTaskTimeout_not_mem_stepTrace f values idx i hmem
    · exact ih hmem

lemma count_write_stepTrace (f : α → Except String (Option β))
    (values : List α) (idx i : Nat) :
    (stepTrace f values idx).count (Event.write i) =
      if idx = i then 1 else 0 := by
  cases h : outcomeAt f values idx <;>
    simp [stepTrace, h, List.count_cons, List.count_nil]

lemma count_write_loopTrace (f : α → Except String (Option β))
    (values : List α) (order : List Nat) (i : Nat) :
    (loopTrace f values order).count (Event.write i) = order.count i := by
  induction order with
  | nil => rfl
  | cons idx rest ih =>
    rw [loopTrace_cons, List.count_append, ih, count_write_stepTrace,
      List.count_cons]
    simp [Nat.add_comm]

lemma printTaskError_mem_stepTrace (f : α → Except String (Option β))
    (values : List α) (idx : Nat) (e : String)
    (h : outcomeAt f values idx = Except.error e) :
    Event.printTaskError idx ∈ stepTrace f values idx := by
  simp [stepTrace, h]

lemma printTaskError_mem_loopTrace (f : α → Except String (Option β))
    (values : List α) (order : List Nat) (idx : Nat) (e : String)
    (hmem : idx ∈ order) (h : outcomeAt f values idx = Except.error e) :
    Event.printTaskError idx ∈ loopTrace f values order := by
  exact List.mem_flatMap_of_mem hmem
    (printTaskError_mem_stepTrace f values idx e h)


/-! ### Further trace helpers -/

lemma printTaskTimeout_not_mem_threadTrace
    (f : α → Except String (Option β)) (values : List α)
    (time_limit : Int) (order : List Nat) (i : Nat) :
    Event.printTaskTimeout i ∉
      (Threading.run_in_threads_with f values time_limit order).2 := by
  rw [run_in_threads_with_eq]
  intro hmem
  simp only [List.cons_append, List.mem_cons, List.mem_append] at hmem
  rcases hmem with h | (h | h) | h | h
  · simp at h
  · exact printTaskTimeout_not_mem_submitTrace values.length i h
  · exact printTaskTimeout_not_mem_loopTrace f values order i h
  · simp at h
  · simp at h

lemma count_write_fullTrace (f : α → Except String (Option β))
    (values : List α) (order : List Nat) (i : Nat) :
    (Event.poolCreate :: submitTrace values.length ++
        loopTrace f values order ++
        [Event.pbarClose, Event.poolShutdown]).count (Event.write i) =
      order.count i := by
  simp [List.count_cons, List.count_append, count_write_loopTrace,
    List.count_eq_zero.2 (write_not_mem_submitTrace values.length i)]

lemma count_order_of_perm (order : List Nat) (n i : Nat)
    (hperm : order.Perm (List.range n)) (hi : i < n) :
    order.count i = 1 := by
  rw [hperm.count_eq i]
  exact List.count_eq_one_of_mem (List.nodup_range n) (List.mem_range.2 hi)

lemma tableSpec_getElem? (f : α → Except String (Option β))
    (values : List α) (i : Nat) (v : α) (hv : values[i]? = some v) :
    (tableSpec f values)[i]? = some (v, pySlot (f v)) := by
  simp [tableSpec, List.getElem?_map, hv]

/-! ### Concrete transformations used in witnesses and examples -/

/-- Squaring as a total Python function: never raises, never returns
`None`. -/
def sqPy (x : Int) : Except String (Option Int) := Except.ok (some (x * x))

/-- The failure example of the spec: raises on input 3, squares otherwise. -/
def failOn3 (x : Int) : Except String (Option Int) :=
  if x = 3 then Except.error "forced failure" else Except.ok (some (x * x))

/-- A transformation that raises on every input. -/
def raisesAlways (x : Int) : Except String (Option Int) :=
  Except.error ("boom " ++ toString x)

/-- A transformation that legitimately returns Python `None` on every
input. -/
def returnsNone (x : Int) : Except String (Option Int) :=
  let _ := x
  Except.ok none


/-! ### Claims -/

/-- C1: for every input sequence of length n and every order in which the
workers complete, `run_in_threads` and `run_in_processes` return (without
raising) a table with exactly n rows in which row i pairs input i with the
outcome of applying the transformation to input i — the computed value, or
the `None` marker when the transformation raised on that input. -/
theorem claim_C1 (f : Int → Except String (Option Int)) (values : List Int)
    (time_limit : Int) (order : List Nat)
    (hperm : order.Perm (List.range values.length)) :
    (Threading.run_in_threads_with f values time_limit order).1 =
        Except.ok (tableSpec f values) ∧
      (MultiProcessing.run_in_processes_with f values order).1 =
        Except.ok (tableSpec f values) ∧
      (tableSpec f values).length = values.length ∧
      ∀ i : Nat, ∀ v : Int, values[i]? = some v →
        (tableSpec f values)[i]? = some (v, pySlot (f v)) := by
  refine ⟨?_, ?_, length_tableSpec f values, ?_⟩
  · rw [run_in_threads_with_spec f values time_limit order hperm]
  · rw [run_in_processes_with_spec f values order hperm]
  · intro i v hv
    exact tableSpec_getElem? f values i v hv

/-- Witness for C1: three inputs, completion order 2, 0, 1. -/
theorem claim_C1_witness :
    (Threading.run_in_threads_with sqPy [1, 2, 3] 9 [2, 0, 1]).1 =
        Except.ok (tableSpec sqPy [1, 2, 3]) ∧
      (MultiProcessing.run_in_processes_with sqPy [1, 2, 3] [2, 0, 1]).1 =
        Except.ok (tableSpec sqPy [1, 2, 3]) ∧
      (tableSpec sqPy [1, 2, 3]).length = 3 ∧
      (tableSpec sqPy [1, 2, 3])[1]? = some (2, pySlot (sqPy 2)) ∧
      tableSpec sqPy [1, 2, 3] = [(1, some 1), (2, some 4), (3, some 9)] := by
  have h := claim_C1 sqPy [1, 2, 3] 9 [2, 0, 1] (by decide)
  exact ⟨h.1, h.2.1, h.2.2.1, h.2.2.2 1 2 rfl, rfl⟩

/-- C6: for a fixed input sequence and a fixed (deterministic)
transformation, two runs of each operation produce identical output tables,
even when the workers complete in different orders in the two runs. -/
theorem claim_C6 (f : Int → Except String (Option Int)) (values : List Int)
    (time_limit : Int) (order1 order2 : List Nat)
    (h1 : order1.Perm (List.range values.length))
    (h2 : order2.Perm (List.range values.length)) :
    (Threading.run_in_threads_with f values time_limit order1).1 =
        (Threading.run_in_threads_with f values time_limit order2).1 ∧
      (MultiProcessing.run_in_processes_with f values order1).1 =
        (MultiProcessing.run_in_processes_with f values order2).1 := by
  rw [run_in_threads_with_spec f values time_limit order1 h1,
    run_in_threads_with_spec f values time_limit order2 h2,
    run_in_processes_with_spec f values order1 h1,
    run_in_processes_with_spec f values order2 h2]
  exact ⟨rfl, rfl⟩

/-- Witness for C6: two opposite completion orders on two inputs. -/
theorem claim_C6_witness :
    (Threading.run_in_threads_with sqPy [1, 2] 9 [1, 0]).1 =
        (Threading.run_in_threads_with sqPy [1, 2] 9 [0, 1]).1 ∧
      (MultiProcessing.run_in_processes_with sqPy [1, 2] [1, 0]).1 =
        (MultiProcessing.run_in_processes_with sqPy [1, 2] [0, 1]).1 :=
  claim_C6 sqPy [1, 2] 9 [1, 0] [0, 1] (by decide) (by decide)

/-- C7: on every exit path of either operation the progress bar is closed
and the worker pool is shut down, in that order, as the last two observable
events before control leaves the call. -/
theorem claim_C7 (f : Int → Except String (Option Int)) (values : List Int)
    (time_limit : Int) (order : List Nat) :
    (∃ es, (Threading.run_in_threads_with f values time_limit order).2 =
        es ++ [Event.pbarClose, Event.poolShutdown]) ∧
      ∃ es, (MultiProcessing.run_in_processes_with f values order).2 =
        es ++ [Event.pbarClose, Event.poolShutdown] := by
  constructor
  · refine ⟨Event.poolCreate :: submitTrace values.length ++
      loopTrace f values order, ?_⟩
    rw [run_in_threads_with_eq]
  · refine ⟨Event.poolCreate :: submitTrace values.length ++
      loopTrace f values order, ?_⟩
    rw [run_in_processes_with_eq]

/-- C9: `slow_square` (identical in both files) returns x * x without
raising whenever x ≤ 6; for x > 6 the computed sleep duration 6 - x is
negative, so the `time.sleep` call raises and `slow_square` returns no
value. -/
theorem claim_C9 (x : Int) :
    (x ≤ 6 →
      Threading.slow_square x = Except.ok (x * x) ∧
        MultiProcessing.slow_square x = Except.ok (x * x)) ∧
      (6 < x →
        6 - x < 0 ∧
          Threading.slow_square x =
            Except.error "ValueError: sleep length must be non-negative" ∧
          MultiProcessing.slow_square x =
            Except.error "ValueError: sleep length must be non-negative") := by
  constructor
  · intro h
    have h0 : ¬(6 - x < 0) := by omega
    constructor <;>
      simp [Threading.slow_square, MultiProcessing.slow_square, timeSleep, h0]
  · intro h
    have h0 : 6 - x < 0 := by omega
    refine ⟨h0, ?_, ?_⟩ <;>
      simp [Threading.slow_square, MultiProcessing.slow_square, timeSleep, h0]

/-- Witness for C9: x = 3 stays below the bound, x = 7 exceeds it. -/
theorem claim_C9_witness :
    (Threading.slow_square 3 = Except.ok (3 * 3) ∧
        MultiProcessing.slow_square 3 = Except.ok (3 * 3)) ∧
      (6 - (7 : Int) < 0 ∧
        Threading.slow_square 7 =
          Except.error "ValueError: sleep length must be non-negative" ∧
        MultiProcessing.slow_square 7 =
          Except.error "ValueError: sleep length must be non-negative") :=
  ⟨(claim_C9 3).1 (by decide), (claim_C9 7).2 (by decide)⟩

/-- C10: the missing/failed marker in the output table is Python `None`, so
a task whose transformation raised is indistinguishable in the returned
table from a task whose transformation legitimately returned `None`: both
runs below return the very same one-row table (7, None). -/
theorem claim_C10 :
    (Threading.run_in_threads_with raisesAlways [7] 9 [0]).1 =
        (Threading.run_in_threads_with returnsNone [7] 9 [0]).1 ∧
      (Threading.run_in_threads_with returnsNone [7] 9 [0]).1 =
        Except.ok [((7 : Int), (none : Option Int))] ∧
      (MultiProcessing.run_in_processes_with raisesAlways [7] [0]).1 =
        (MultiProcessing.run_in_processes_with returnsNone [7] [0]).1 ∧
      (MultiProcessing.run_in_processes_with returnsNone [7] [0]).1 =
        Except.ok [((7 : Int), (none : Option Int))] :=
  ⟨rfl, rfl, rfl, rfl⟩


/-- C2: a transformation that raises on some input leaves the `None` marker
in that input's slot, the error is reported (printed) with the originating
index, every other task still gets its own outcome, and nothing propagates
out of the overall call — in either runner. -/
theorem claim_C2 (f : Int → Except String (Option Int)) (values : List Int)
    (time_limit : Int) (order : List Nat) (i : Nat) (v : Int) (e : String)
    (hperm : order.Perm (List.range values.length))
    (hv : values[i]? = some v) (hf : f v = Except.error e) :
    (Threading.run_in_threads_with f values time_limit order).1 =
        Except.ok (tableSpec f values) ∧
      (MultiProcessing.run_in_processes_with f values order).1 =
        Except.ok (tableSpec f values) ∧
      (tableSpec f values)[i]? = some (v, none) ∧
      Event.printTaskError i ∈
        (Threading.run_in_threads_with f values time_limit order).2 ∧
      Event.printTaskError i ∈
        (MultiProcessing.run_in_processes_with f values order).2 ∧
      ∀ j : Nat, ∀ w : Int, values[j]? = some w →
        (tableSpec f values)[j]? = some (w, pySlot (f w)) := by
  have hi : i < values.length := by
    by_contra hcon
    rw [List.getElem?_eq_none (Nat.le_of_not_lt hcon)] at hv
    exact Option.noConfusion hv
  have hmem : i ∈ order := hperm.mem_iff.2 (List.mem_range.2 hi)
  have houtcome : outcomeAt f values i = Except.error e := by
    simp [outcomeAt, hv, hf]
  have hloop : Event.printTaskError i ∈ loopTrace f values order :=
    printTaskError_mem_loopTrace f values order i e hmem houtcome
  refine ⟨?_, ?_, ?_, ?_, ?_, ?_⟩
  · rw [run_in_threads_with_spec f values time_limit order hperm]
  · rw [run_in_processes_with_spec f values order hperm]
  · rw [tableSpec_getElem? f values i v hv]
    simp [pySlot, hf]
  · rw [run_in_threads_with_spec f values time_limit order hperm]
    simp [hloop]
  · rw [run_in_processes_with_spec f values order hperm]
    simp [hloop]
  · intro j w hw
    exact tableSpec_getElem? f values j w hw

/-- Witness for C2, which is exactly the spec's example: inputs 1..5 with a
transformation forced to fail on input 3 yield outputs 1, 4, None, 16, 25,
with the failure of (0-based) index 2 printed. -/
theorem claim_C2_witness :
    (Threading.run_in_threads_with failOn3 [1, 2, 3, 4, 5] 9
        [4, 0, 3, 1, 2]).1 = Except.ok (tableSpec failOn3 [1, 2, 3, 4, 5]) ∧
      (MultiProcessing.run_in_processes_with failOn3 [1, 2, 3, 4, 5]
        [4, 0, 3, 1, 2]).1 = Except.ok (tableSpec failOn3 [1, 2, 3, 4, 5]) ∧
      (tableSpec failOn3 [1, 2, 3, 4, 5])[2]? = some (3, none) ∧
      Event.printTaskError 2 ∈
        (Threading.run_in_threads_with failOn3 [1, 2, 3, 4, 5] 9
          [4, 0, 3, 1, 2]).2 ∧
      Event.printTaskError 2 ∈
        (MultiProcessing.run_in_processes_with failOn3 [1, 2, 3, 4, 5]
          [4, 0, 3, 1, 2]).2 ∧
      tableSpec failOn3 [1, 2, 3, 4, 5] =
        [(1, some 1), (2, some 4), (3, none), (4, some 16), (5, some 25)] := by
  have h := claim_C2 failOn3 [1, 2, 3, 4, 5] 9 [4, 0, 3, 1, 2] 2 3
    "forced failure" (by decide) rfl rfl
  exact ⟨h.1, h.2.1, h.2.2.1, h.2.2.2.1, h.2.2.2.2.1, rfl⟩

/-- C3: the claim describes the intended timeout behaviour, but the code
cannot exhibit it: `as_completed` only yields futures that have already
finished, so `future.result(timeout=time_limit)` never raises
`TimeoutError`.  At the failing input below — one task sleeping 6 seconds
against a 1-second time limit — `run_in_threads` returns the computed
square instead of a missing/failed marker and never prints a timeout
report. -/
theorem claim_C3 :
    (Threading.run_in_threads [0] 1 [0]).1 =
        Except.ok [((0 : Int), some (0 : Int))] ∧
      ∀ i : Nat,
        Event.printTaskTimeout i ∉ (Threading.run_in_threads [0] 1 [0]).2 := by
  refine ⟨rfl, ?_⟩
  intro i
  exact printTaskTimeout_not_mem_threadTrace _ [0] 1 [0] i

/-- C4: when either runner returns, the table has as many rows as there are
inputs, slot i was written exactly once during the run, and what it holds
is the computed value when the transformation returned and the explicit
`None` marker when it raised. -/
theorem claim_C4 (f : Int → Except String (Option Int)) (values : List Int)
    (time_limit : Int) (order : List Nat)
    (hperm : order.Perm (List.range values.length)) :
    (Threading.run_in_threads_with f values time_limit order).1 =
        Except.ok (tableSpec f values) ∧
      (MultiProcessing.run_in_processes_with f values order).1 =
        Except.ok (tableSpec f values) ∧
      (tableSpec f values).length = values.length ∧
      (∀ i : Nat, i < values.length →
        (Threading.run_in_threads_with f values time_limit
            order).2.count (Event.write i) = 1 ∧
        (MultiProcessing.run_in_processes_with f values
            order).2.count (Event.write i) = 1) ∧
      ∀ i : Nat, ∀ v : Int, values[i]? = some v →
        (∃ y, f v = Except.ok y ∧ (tableSpec f values)[i]? = some (v, y)) ∨
        ∃ e, f v = Except.error e ∧ (tableSpec f values)[i]? = some (v, none) := by
  refine ⟨?_, ?_, length_tableSpec f values, ?_, ?_⟩
  · rw [run_in_threads_with_spec f values time_limit order hperm]
  · rw [run_in_processes_with_spec f values order hperm]
  · intro i hi
    constructor
    · rw [run_in_threads_with_spec f values time_limit order hperm]
      rw [show ((Except.ok (tableSpec f values) :
            Except String (List (Int × Option Int))),
          Event.poolCreate :: submitTrace values.length ++
            loopTrace f values order ++
            [Event.pbarClose, Event.poolShutdown]).2 =
          Event.poolCreate :: submitTrace values.length ++
            loopTrace f values order ++
            [Event.pbarClose, Event.poolShutdown] from rfl]
      rw [count_write_fullTrace f values order i]
      exact count_order_of_perm order values.length i hperm hi
    · rw [run_in_processes_with_spec f values order hperm]
      rw [show ((Except.ok (tableSpec f values) :
            Except String (List (Int × Option Int))),
          Event.poolCreate :: submitTrace values.length ++
            loopTrace f values order ++
            [Event.pbarClose, Event.poolShutdown]).2 =
          Event.poolCreate :: submitTrace values.length ++
            loopTrace f values order ++
            [Event.pbarClose, Event.poolShutdown] from rfl]
      rw [count_write_fullTrace f values order i]
      exact count_order_of_perm order values.length i hperm hi
  · intro i v hv
    cases hfv : f v with
    | ok y =>
      left
      refine ⟨y, rfl, ?_⟩
      rw [tableSpec_getElem? f values i v hv]
      simp [pySlot, hfv]
    | error e =>
      right
      refine ⟨e, rfl, ?_⟩
      rw [tableSpec_getElem? f values i v hv]
      simp [pySlot, hfv]

/-- Witness for C4: slot 2 of the failure example holds the marker, slot 0
holds a computed value, and each of the three slots is written once. -/
theorem claim_C4_witness :
    (Threading.run_in_threads_with failOn3 [2, 3, 4] 9 [2, 0, 1]).1 =
        Except.ok (tableSpec failOn3 [2, 3, 4]) ∧
      (tableSpec failOn3 [2, 3, 4]).length = 3 ∧
      (Threading.run_in_threads_with failOn3 [2, 3, 4] 9
          [2, 0, 1]).2.count (Event.write 1) = 1 ∧
      (MultiProcessing.run_in_processes_with failOn3 [2, 3, 4]
          [2, 0, 1]).2.count (Event.write 1) = 1 ∧
      (∃ y, failOn3 2 = Except.ok y ∧
        (tableSpec failOn3 [2, 3, 4])[0]? = some (2, y)) ∧
      ∃ e, failOn3 3 = Except.error e ∧
        (tableSpec failOn3 [2, 3, 4])[1]? = some (3, none) := by
  have h := claim_C4 failOn3 [2, 3, 4] 9 [2, 0, 1] (by decide)
  have hw := h.2.2.2.1 1 (by decide)
  have hok := h.2.2.2.2 0 2 rfl
  have herr := h.2.2.2.2 1 3 rfl
  refine ⟨h.1, h.2.2.1, hw.1, hw.2, ?_, ?_⟩
  · rcases hok with hok | hok
    · exact hok
    · rcases hok with ⟨e, he, _⟩
      simp [failOn3] at he
  · rcases herr with herr | herr
    · rcases herr with ⟨y, hy, _⟩
      simp [failOn3] at hy
    · exact herr

/-- C5 counterexample: even for the empty input sequence both operations do
invoke the worker-pool machinery — the pool is created (and torn down), as
the event trace records. -/
theorem claim_C5_cex :
    Event.poolCreate ∈ (Threading.run_in_threads ([] : List Int) 3 []).2 ∧
      Event.poolCreate ∈
        (MultiProcessing.run_in_processes ([] : List Int) []).2 := by
  decide

/-- C5 as amended: for the empty input sequence both operations return the
empty, zero-row output table, submit no task, and never invoke the
transformation — but the pool executor and the progress bar are still
created and torn down. -/
theorem claim_C5_amended (f : Int → Except String (Option Int))
    (time_limit : Int) (order : List Nat)
    (hperm : order.Perm (List.range (List.length ([] : List Int)))) :
    Threading.run_in_threads_with f [] time_limit order =
      (Except.ok [],
        [Event.poolCreate, Event.pbarClose, Event.poolShutdown]) ∧
      MultiProcessing.run_in_processes_with f [] order =
        (Except.ok [],
          [Event.poolCreate, Event.pbarClose, Event.poolShutdown]) := by
  have horder : order = [] := by
    simpa using hperm.eq_nil
  subst horder
  exact ⟨rfl, rfl⟩

/-- Witness for C5 as amended, at the empty completion order forced by the
empty future set. -/
theorem claim_C5_amended_witness :
    Threading.run_in_threads_with sqPy [] 3 [] =
      (Except.ok [],
        [Event.poolCreate, Event.pbarClose, Event.poolShutdown]) ∧
      MultiProcessing.run_in_processes_with sqPy [] [] =
        (Except.ok [],
          [Event.poolCreate, Event.pbarClose, Event.poolShutdown]) :=
  claim_C5_amended sqPy 3 [] (by decide)

/-- C8: in `run_in_threads` the `except TimeoutError` handler is dead code —
`as_completed` yields only futures that have already finished, so
`future.result(timeout=time_limit)` never raises `TimeoutError`, no timeout
report is ever printed — and the whole call (table and trace alike) is
identical for every value of the `time_limit` argument. -/
theorem claim_C8 (values : List Int) (tl1 tl2 : Int) (order : List Nat) :
    (∀ i : Nat, Event.printTaskTimeout i ∉
        (Threading.run_in_threads values tl1 order).2) ∧
      Threading.run_in_threads values tl1 order =
        Threading.run_in_threads values tl2 order := by
  constructor
  · intro i
    exact printTaskTimeout_not_mem_threadTrace _ values tl1 order i
  · rw [Threading.run_in_threads, Threading.run_in_threads,
      run_in_threads_with_eq, run_in_threads_with_eq]


/-- Witness for C7 at a concrete run of each operation. -/
theorem claim_C7_witness :
    (∃ es, (Threading.run_in_threads_with sqPy [1, 2] 9 [1, 0]).2 =
        es ++ [Event.pbarClose, Event.poolShutdown]) ∧
      ∃ es, (MultiProcessing.run_in_processes_with sqPy [1, 2] [1, 0]).2 =
        es ++ [Event.pbarClose, Event.poolShutdown] :=
  claim_C7 sqPy [1, 2] 9 [1, 0]

/-- Witness for C8: a 6-second task against a 1-second and a 100-second
time limit. -/
theorem claim_C8_witness :
    Event.printTaskTimeout 0 ∉
        (Threading.run_in_threads [0, 5] 1 [1, 0]).2 ∧
      Threading.run_in_threads [0, 5] 1 [1, 0] =
        Threading.run_in_threads [0, 5] 100 [1, 0] :=
  ⟨(claim_C8 [0, 5] 1 100 [1, 0]).1 0, (claim_C8 [0, 5] 1 100 [1, 0]).2⟩


end PySnippets
